import Mathlib

/-!
Verification development for the gatekeeper pre-commit quality-gate engine.

This file gives a shallow embedding of the core pure logic of the Go
implementation and proves the documented invariants against it:

* the structured diagnostic / gate result / run result data model
  (`internal/engine/formatter`, `internal/engine/parser`);
* the output parsers (`internal/engine/parser`: generic, SARIF, go-test);
* the LLM line-number validator (`internal/engine/llm/validate.go`);
* the file filter (`internal/engine/gate/filter.go`);
* the gate kinds (`internal/engine/gate`);
* the execution engine collection/aggregation (`internal/engine/runner`);
* the container pool key and executor label behaviour (`internal/engine/pool`);
* the pipeline exit-status decision (`cmd/gatekeeper/commands`).

Machine integers are modelled as `Int` (no arithmetic in the embedded code
comes near overflow); Go byte slices holding text are modelled as `String`;
fallible Go functions returning `(T, error)` are modelled as
`Except String T`.  External library calls (SARIF JSON decoding, go-test
event JSON decoding, `filepath.Match`, SHA-256) are abstracted as function
parameters: all the repository-owned logic around them is embedded directly.
-/

namespace Gatekeeper

/-- `parser.StructuredError` (internal/engine/parser/parser.go): a single
issue found by a tool. -/
structure StructuredError where
  file : String := ""
  line : Int := 0
  column : Int := 0
  severity : String := ""
  rule : String := ""
  message : String := ""
  hint : String := ""
  tool : String := ""
  deriving Repr, DecidableEq

/-- `parser.ParseResult` (internal/engine/parser/parser.go). -/
structure ParseResult where
  passed : Bool := false
  errors : List StructuredError := []
  deriving Repr, DecidableEq

/-- `formatter.GateResult` (internal/engine/formatter/types.go): the result
of executing a single gate.  `durationMs` mirrors the `DurationMs int64`
field. -/
structure GateResult where
  name : String := ""
  type : String := ""
  passed : Bool := false
  blocking : Bool := false
  skipped : Bool := false
  durationMs : Int := 0
  errors : List StructuredError := []
  systemError : String := ""
  rawOutput : String := ""
  deriving Repr, DecidableEq

/-- `formatter.RunResult` (internal/engine/formatter/types.go): the
aggregated result of all gates in a run. -/
structure RunResult where
  passed : Bool := false
  durationMs : Int := 0
  gates : List GateResult := []
  deriving Repr, DecidableEq

/-- `git.FileDiff` (internal/engine/git/git.go): one file's staged patch. -/
structure FileDiff where
  path : String := ""
  content : String := ""
  deriving Repr, DecidableEq

/-- `config.GateType` (internal/engine/config/config.go). -/
inductive GateType where
  | exec
  | script
  | llm
  deriving Repr, DecidableEq

/-- `config.Gate` (internal/engine/config/config.go): a single validation
gate configuration.  `timeoutNs` mirrors the Go `time.Duration` field and
`blocking` the tri-state `*bool`. -/
structure GateConfig where
  name : String := ""
  type : GateType := .exec
  command : String := ""
  path : String := ""
  container : String := ""
  parserName : String := ""
  timeoutNs : Int := 0
  blocking : Option Bool := none
  onError : String := ""
  only : List String := []
  except : List String := []
  writable : Bool := false
  provider : String := ""
  mode : String := ""
  prompt : String := ""
  maxFileSize : String := ""
  deriving Repr, DecidableEq

/-- `config.Gate.IsBlocking` (internal/engine/config/config.go): falls back
to `true` when the tri-state field is unset. -/
def GateConfig.isBlocking (g : GateConfig) : Bool :=
  match g.blocking with
  | some b => b
  | none => true

/- ### File filter (internal/engine/gate/filter.go)

`filepath.Match` is a Go standard-library call; it is abstracted as the
parameter `fmatch : pattern → candidate → Bool`.  Everything else mirrors
filter.go line by line. -/

/-- `filepath.Base` (Go standard library): the last element of the path,
after removing trailing slashes; "." for the empty path, "/" when the path
is all slashes. -/
def goBase (p : String) : String :=
  if p = "" then "."
  else
    let cs := (p.toList.reverse.dropWhile (· = '/')).reverse
    if cs = [] then "/"
    else String.mk ((cs.reverse.takeWhile (· ≠ '/')).reverse)

/-- `gate.matchesPattern` (filter.go): the file matches when any glob
pattern matches the full path or its base name. -/
def matchesPattern (fmatch : String → String → Bool)
    (file : String) (patterns : List String) : Bool :=
  patterns.any (fun p => fmatch p file || fmatch p (goBase file))

/-- `gate.excludeFiles` (filter.go): files that do NOT match any pattern. -/
def excludeFiles (fmatch : String → String → Bool)
    (files patterns : List String) : List String :=
  files.filter (fun f => !matchesPattern fmatch f patterns)

/-- `gate.matchesAny` (filter.go): true when at least one file matches any
pattern. -/
def matchesAny (fmatch : String → String → Bool)
    (files patterns : List String) : Bool :=
  files.any (fun f => matchesPattern fmatch f patterns)

/-- `gate.ShouldRun` (filter.go): whether a gate should run given its
only/except patterns and the staged files. -/
def ShouldRun (fmatch : String → String → Bool)
    (cfg : GateConfig) (stagedFiles : List String) : Bool :=
  if cfg.only = [] && cfg.except = [] then
    true
  else
    let filtered :=
      if cfg.except ≠ [] then excludeFiles fmatch stagedFiles cfg.except
      else stagedFiles
    if cfg.only ≠ [] then
      matchesAny fmatch filtered cfg.only
    else
      filtered.length > 0

/-- `gate.FilterGates` (filter.go): keeps the gates whose `ShouldRun` is
true; when no files are staged ALL gates are returned. -/
def FilterGates (fmatch : String → String → Bool)
    (gates : List GateConfig) (stagedFiles : List String) : List GateConfig :=
  if stagedFiles.isEmpty then gates
  else gates.filter (fun g => ShouldRun fmatch g stagedFiles)

/- ### Go string primitives

Small structural models of the Go standard-library string helpers the
embedded code calls, so that every definition evaluates inside the
kernel. -/

/-- Go `strings.TrimSpace` / `bytes.TrimSpace`: strip leading and trailing
whitespace. -/
def goTrimSpace (s : String) : String :=
  String.mk (((s.toList.dropWhile Char.isWhitespace).reverse.dropWhile
    Char.isWhitespace).reverse)

/-- Go `strings.HasPrefix`. -/
def goHasPrefix (s pre : String) : Bool :=
  pre.toList.isPrefixOf s.toList

/-- `strings.Split` on a single separator character, on character lists:
splitting the empty string yields one empty field. -/
def splitOnChar (sep : Char) : List Char → List (List Char)
  | [] => [[]]
  | c :: rest =>
    match splitOnChar sep rest with
    | [] => [[]]
    | grp :: gs => if c = sep then [] :: grp :: gs else (c :: grp) :: gs

/-- Go `strings.Split(s, sep)` for a one-character separator. -/
def goSplitLines (s : String) : List String :=
  (splitOnChar '\n' s.toList).map String.mk

/- ### Parsers (internal/engine/parser) -/

/-- `parser.GenericParser.Parse` (generic.go): relies solely on the exit
code; on failure produces exactly one error diagnostic whose message is
stderr, falling back to stdout, falling back to a fixed string, trimmed.
The generic parser never returns a Go error. -/
def genericParse (stdout stderr : String) (exitCode : Int) : ParseResult :=
  if exitCode = 0 then
    { passed := true }
  else
    let msg := stderr
    let msg := if goTrimSpace msg = "" then stdout else msg
    let msg := if goTrimSpace msg = "" then "Tool failed with no output" else msg
    { passed := false
      errors := [{ severity := "error", message := goTrimSpace msg, tool := "generic" }] }

/-- The fields of a decoded SARIF result that SarifParser.Parse reads
(sarif.go), as exposed by the external `go-sarif` library. -/
structure SarifResultData where
  level : Option String := none
  ruleId : Option String := none
  messageText : Option String := none
  locFile : Option String := none
  locStartLine : Option Int := none
  locStartColumn : Option Int := none
  deriving Repr, DecidableEq

/-- One decoded SARIF run: the tool driver name plus its results. -/
structure SarifRunData where
  driverName : String := ""
  results : List SarifResultData := []
  deriving Repr, DecidableEq

/-- A decoded SARIF report (`report.Runs`). -/
structure SarifReport where
  runs : List SarifRunData := []
  deriving Repr, DecidableEq

/-- The severity mapping of `SarifParser.Parse` (sarif.go): SARIF level →
{error, warning, info}, defaulting to info. -/
def sarifSeverity (algoLevel : String) : String :=
  if algoLevel.toLower = "error" then "error"
  else if algoLevel.toLower = "warning" then "warning"
  else "info"

/-- One SARIF result converted to a `StructuredError` (sarif.go): absent
fields become "" / 0, the first location supplies file/line/column. -/
def sarifResultError (toolName : String) (r : SarifResultData) : StructuredError :=
  { file := r.locFile.getD ""
    line := r.locStartLine.getD 0
    column := r.locStartColumn.getD 0
    severity := sarifSeverity (r.level.getD "info")
    rule := r.ruleId.getD ""
    message := r.messageText.getD ""
    tool := toolName }

/-- `parser.SarifParser.Parse` (sarif.go).  The JSON decoding performed by
the external `go-sarif` library is abstracted as `fromBytes`; the
fail-closed branch, the severity mapping and the iteration over runs and
results are embedded from the source.  Note the fail-closed branch uses
stderr verbatim (`msg := string(stderr)`, no trimming) and falls back to
the generic message only when stderr is byte-empty. -/
def sarifParse (fromBytes : String → Except String SarifReport)
    (stdout stderr : String) (exitCode : Int) : Except String ParseResult :=
  if goTrimSpace stdout = "" then
    if exitCode ≠ 0 then
      let msg := stderr
      let msg := if msg = "" then "Tool failed with non-zero exit code and empty stdout" else msg
      .ok { passed := false
            errors := [{ severity := "error", message := msg, tool := "sarif" }] }
    else
      .ok { passed := true }
  else
    match fromBytes stdout with
    | .error e => .error ("parsing SARIF JSON: " ++ e)
    | .ok report =>
      let errors := report.runs.flatMap
        (fun run => run.results.map (sarifResultError run.driverName))
      let failed := report.runs.any
        (fun run => run.results.any (fun r => (r.level.getD "info").toLower = "error"))
      .ok { passed := !failed, errors := errors }

/-- One event of the `go test -json` stream (`parser.testEvent`,
gotest.go). -/
structure TestEvent where
  action : String := ""
  package : String := ""
  test : String := ""
  output : String := ""
  deriving Repr, DecidableEq

/-- The buffered output lines for one `package::test` key, joined with ""
(gotest.go builds a `map[string][]string` then `strings.Join(…, "")`;
joining with "" equals concatenating in stream order). -/
def goTestOutputFor (events : List TestEvent) (key : String) : String :=
  events.foldl
    (fun acc ev =>
      if ev.action = "output" && ev.package ++ "::" ++ ev.test = key
      then acc ++ ev.output else acc) ""

/-- The message of a test-level failure (gotest.go): trimmed buffered
output, or a synthetic message when empty. -/
def goTestFailMessage (events : List TestEvent) (ev : TestEvent) : String :=
  let msg := goTrimSpace (goTestOutputFor events (ev.package ++ "::" ++ ev.test))
  if msg = "" then "test " ++ ev.test ++ " failed" else msg

/-- The message of a package-level failure (gotest.go). -/
def goTestPkgFailMessage (events : List TestEvent) (pkg : String) : String :=
  let msg := goTrimSpace (goTestOutputFor events (pkg ++ "::"))
  if msg = "" then "package " ++ pkg ++ " failed" else msg

/-- `parser.GoTestParser.Parse` (gotest.go).  The newline-delimited JSON
decoding (`parseEvents`, a thin wrapper over `encoding/json`) is abstracted
as `parseEv`; the fail-closed branch and the two-phase failure collection
are embedded from the source. -/
def goTestParse (parseEv : String → Except String (List TestEvent))
    (stdout stderr : String) (exitCode : Int) : Except String ParseResult :=
  if goTrimSpace stdout = "" then
    if exitCode ≠ 0 then
      let msg := goTrimSpace stderr
      let msg := if msg = "" then "go test failed with non-zero exit code and empty output" else msg
      .ok { passed := false
            errors := [{ severity := "error", message := msg, tool := "go-test" }] }
    else
      .ok { passed := true }
  else
    match parseEv stdout with
    | .error e => .error ("parsing go test JSON output: " ++ e)
    | .ok events =>
      let failedPackages :=
        (events.filter (fun ev => ev.action = "fail" && ev.test ≠ "")).map (·.package)
      let testErrors := events.filterMap (fun ev =>
        if ev.action = "fail" && ev.test ≠ "" then
          some { file := ev.package, severity := "error",
                 message := goTestFailMessage events ev, tool := "go-test" }
        else none)
      let pkgErrors := events.filterMap (fun ev =>
        if ev.action = "fail" && ev.test = "" && !failedPackages.contains ev.package then
          some { file := ev.package, severity := "error",
                 message := goTestPkgFailMessage events ev.package, tool := "go-test" }
        else (none : Option StructuredError))
      let errors := testErrors ++ pkgErrors
      .ok { passed := errors.isEmpty && exitCode = 0, errors := errors }

/-- `parser.EnrichHints` (hints.go): populate empty `hint` fields from the
static rule-ID table; pre-existing hints are preserved.  The static table
is abstracted as the lookup `db`. -/
def enrichHints (db : String → Option String)
    (errors : List StructuredError) : List StructuredError :=
  errors.map (fun e =>
    if e.hint ≠ "" then e
    else
      match db e.rule with
      | some hint => { e with hint := hint }
      | none => e)

/- ### LLM line-number validator (internal/engine/llm/validate.go) -/

/-- The numeric value of a decimal digit list, most significant first. -/
def digitsToNat (cs : List Char) : Nat :=
  cs.foldl (fun n c => 10 * n + (c.toNat - '0'.toNat)) 0

/-- Go `strconv.Atoi` with the error ignored (validate.go ignores it):
a fully numeric string with an optional sign parses to its value, anything
else yields 0. -/
def goAtoi (s : String) : Int :=
  match s.toList with
  | [] => 0
  | c :: rest =>
    if c = '-' then
      if rest ≠ [] && rest.all Char.isDigit then -(digitsToNat rest : Int) else 0
    else if c = '+' then
      if rest ≠ [] && rest.all Char.isDigit then (digitsToNat rest : Int) else 0
    else if (c :: rest).all Char.isDigit then (digitsToNat (c :: rest) : Int)
    else 0

/-- The suffix strictly after the first occurrence of `c`, or `none` when
`c` does not occur (models `strings.Index` + slicing). -/
def suffixAfterFirst (cs : List Char) (c : Char) : Option (List Char) :=
  match cs with
  | [] => none
  | x :: xs => if x = c then some xs else suffixAfterFirst xs c

/-- `llm.parseHunkHeader` (validate.go): extracts start and count from the
`+start,count` portion of a hunk header `@@ -a,b +c,d @@`.  A missing `+`
gives (0, 0); a missing count gives count 1. -/
def parseHunkHeader (header : String) : Int × Int :=
  match suffixAfterFirst header.toList '+' with
  | none => (0, 0)
  | some rest =>
    let hunk := rest.takeWhile (· ≠ ' ')
    match suffixAfterFirst hunk ',' with
    | none => (goAtoi (String.mk hunk), 1)
    | some afterComma =>
      (goAtoi (String.mk (hunk.takeWhile (· ≠ ','))),
       goAtoi (String.mk afterComma))

/-- The maximum `start+count` over the hunk headers of one diff's content
(validate.go, inner loop of `buildDiffLineMap`). -/
def diffMaxLine (content : String) : Int :=
  (goSplitLines content).foldl
    (fun maxLine line =>
      if goHasPrefix line "@@ " then
        let sc := parseHunkHeader line
        if sc.1 + sc.2 > maxLine then sc.1 + sc.2 else maxLine
      else maxLine) 0

/-- Insert-or-replace on an association list, modelling assignment into a
Go map. -/
def assocUpsert {α : Type} (l : List (String × α)) (k : String) (v : α) :
    List (String × α) :=
  match l with
  | [] => [(k, v)]
  | (k₀, v₀) :: rest =>
    if k₀ = k then (k, v) :: rest else (k₀, v₀) :: assocUpsert rest k v

/-- Lookup on the association-list model of a Go map. -/
def assocLookup {α : Type} (l : List (String × α)) (k : String) : Option α :=
  match l with
  | [] => none
  | (k₀, v₀) :: rest => if k₀ = k then some v₀ else assocLookup rest k

/-- `llm.buildDiffLineMap` (validate.go): per file, the maximum line
referenced by any hunk header, with the generous default 10000 when the
diff has no (effective) hunk headers. -/
def buildDiffLineMap (diffs : List FileDiff) : List (String × Int) :=
  diffs.foldl
    (fun acc d =>
      let maxLine := diffMaxLine d.content
      let maxLine := if maxLine = 0 then 10000 else maxLine
      assocUpsert acc d.path maxLine) []

/-- `llm.ValidateLineNumbers` (validate.go): drop diagnostics whose file is
not in the diff map or whose (positive) line exceeds the file's maximum
hunk line. -/
def ValidateLineNumbers (errors : List StructuredError) (diffs : List FileDiff) :
    List StructuredError :=
  let diffLines := buildDiffLineMap diffs
  errors.filter (fun e =>
    match assocLookup diffLines e.file with
    | none => false
    | some maxLine => !(e.line > 0 && e.line > maxLine))

/- ### Pool key (internal/engine/pool/pool.go) -/

/-- The pre-image string digested by `pool.computePoolKey` (pool.go):
`fmt.Sprintf("%s|%s|%t", image, projectPath, writable)`. -/
def poolKeyData (image projectPath : String) (writable : Bool) : String :=
  image ++ "|" ++ projectPath ++ "|" ++ (if writable then "true" else "false")

/-- `pool.computePoolKey` (pool.go): the hex SHA-256 digest of
`poolKeyData`.  SHA-256 is an external primitive, abstracted as `h`;
nothing proved below depends on anything but its functionality. -/
def computePoolKey (h : String → String)
    (image projectPath : String) (writable : Bool) : String :=
  h (poolKeyData image projectPath writable)

/- ### Pipeline exit status (cmd/gatekeeper/commands) -/

/-- The error taxonomy visible at the command layer: the `ErrGatesFailed`
sentinel (dryrun.go) versus any other pipeline error. -/
inductive PipelineErr where
  | gatesFailed
  | other (msg : String)
  deriving Repr, DecidableEq

/-- Step 13 of `Pipeline.Execute` (pipeline_orchestrator.go): dry-run
returns nil; otherwise a failed run returns the `ErrGatesFailed`
sentinel. -/
def pipelineExitStep (dryRun : Bool) (result : RunResult) : Option PipelineErr :=
  if dryRun then none
  else if !result.passed then some .gatesFailed
  else none

/-- `runCmd` (run.go): `ErrGatesFailed` is mapped to `os.Exit(1)`; a nil
error exits 0; any other error is handed to cobra, which exits 1. -/
def runCmdExit (e : Option PipelineErr) : Nat :=
  match e with
  | some .gatesFailed => 1
  | some (.other _) => 1
  | none => 0

/-- `dryRunCmd` (dryrun.go): the pipeline error is returned as-is; cobra
exits 0 on nil and 1 otherwise. -/
def dryRunCmdExit (e : Option PipelineErr) : Nat :=
  match e with
  | some _ => 1
  | none => 0

/- ### Gate kinds (internal/engine/gate)

A gate's collaborators are ports (container pool, executor, parser, git
service, LLM client).  Each port call is modelled by the `Except`-valued
outcome the gate observes; wall-clock durations are threaded as the
`elapsedMs` parameter (`time.Since(start).Milliseconds()`). -/

/-- `pool.ExecResult` (internal/engine/pool/executor.go). -/
structure ExecResult where
  stdout : String := ""
  stderr : String := ""
  exitCode : Int := 0
  durationMs : Int := 0
  deriving Repr, DecidableEq

/-- Go `string(cfg.Type)` for the `config.GateType` constants. -/
def GateType.str : GateType → String
  | .exec => "exec"
  | .script => "script"
  | .llm => "llm"

/-- Go `strings.ToUpper` (ASCII suffices for the size strings parsed
below). -/
def goToUpper (s : String) : String :=
  String.mk (s.toList.map Char.toUpper)

/-- Go `strings.HasSuffix`. -/
def goHasSuffix (s suffix : String) : Bool :=
  suffix.toList.isSuffixOf s.toList

/-- Go `s[:len(s)-2]` on our string model. -/
def dropLastTwo (s : String) : String :=
  String.mk s.toList.dropLast.dropLast

/-- `gate.parseMaxFileSize` (llm_gate.go): "100KB" → bytes; 0 (no limit)
on empty or invalid input or a non-positive count. -/
def parseMaxFileSize (s : String) : Int :=
  let s := goTrimSpace s
  if s = "" then 0
  else
    let s := goToUpper s
    let mn : Int × String :=
      if goHasSuffix s "MB" then (1024 * 1024, dropLastTwo s)
      else if goHasSuffix s "KB" then (1024, dropLastTwo s)
      else (1, s)
    let n := goAtoi (goTrimSpace mn.2)
    if n ≤ 0 then 0 else n * mn.1

/-- Go `len` on a string: its UTF-8 byte length. -/
def goLen (s : String) : Int :=
  s.toList.foldl (fun n c => n + (Char.utf8Size c : Int)) 0

/-- `git.FilterBySize` (internal/engine/git/diff.go): first component the
included diffs (content within `maxSize` bytes), second the skipped ones;
`maxSize ≤ 0` means no limit. -/
def FilterBySize (diffs : List FileDiff) (maxSize : Int) :
    List FileDiff × List FileDiff :=
  if maxSize ≤ 0 then (diffs, [])
  else
    (diffs.filter (fun d => !(goLen d.content > maxSize)),
     diffs.filter (fun d => goLen d.content > maxSize))

/-- `gate.ContainerGate.Execute` (container_gate.go).  `poolRes` is the
outcome of `pool.GetOrCreate`, `execRes` of `executor.Run` (on the command
built by `buildCommand` with the configured timeout), `parseRes` of the
configured parser, and `db` the static hint table used by
`parser.EnrichHints`.  Port failures land in `systemError` and are not
propagated; the raw stdout is recorded before parsing. -/
def containerGateExecute (db : String → Option String) (cfg : GateConfig)
    (poolRes : Except String String) (execRes : Except String ExecResult)
    (parseRes : Except String ParseResult) (elapsedMs : Int) : GateResult :=
  let result : GateResult :=
    { name := cfg.name, type := cfg.type.str, blocking := cfg.isBlocking }
  match poolRes with
  | .error e =>
    { result with systemError := "container setup failed: " ++ e,
                  durationMs := elapsedMs }
  | .ok _containerID =>
    match execRes with
    | .error e =>
      { result with systemError := "execution failed: " ++ e,
                    durationMs := elapsedMs }
    | .ok execResult =>
      let result := { result with rawOutput := execResult.stdout }
      match parseRes with
      | .error e =>
        { result with systemError := "parser error: " ++ e,
                      durationMs := elapsedMs }
      | .ok parsed =>
        { result with passed := parsed.passed,
                      errors := enrichHints db parsed.errors,
                      durationMs := elapsedMs }

/-- `gate.LLMGate.Execute` (llm_gate.go).  `diffsRes` is the outcome of
`gitSvc.StagedDiff`, `reviewRes` of `client.Review` on the built prompt.
Empty diff set or all-filtered diff set pass immediately; surviving
diagnostics are line-validated and stamped with the provider name. -/
def llmGateExecute (cfg : GateConfig)
    (diffsRes : Except String (List FileDiff))
    (reviewRes : Except String (List StructuredError))
    (elapsedMs : Int) : GateResult :=
  let result : GateResult :=
    { name := cfg.name, type := cfg.type.str, blocking := cfg.isBlocking }
  match diffsRes with
  | .error e =>
    { result with systemError := "failed to get staged diffs: " ++ e,
                  durationMs := elapsedMs }
  | .ok diffs =>
    if diffs.length = 0 then
      { result with passed := true, durationMs := elapsedMs }
    else
      let maxSize := parseMaxFileSize cfg.maxFileSize
      let filtered := (FilterBySize diffs maxSize).1
      if filtered.length = 0 then
        { result with passed := true, durationMs := elapsedMs }
      else
        match reviewRes with
        | .error e =>
          { result with systemError := "LLM review failed: " ++ e,
                        durationMs := elapsedMs }
        | .ok errors =>
          let validated := ValidateLineNumbers errors filtered
          let validated := validated.map (fun e => { e with tool := cfg.provider })
          { result with errors := validated,
                        passed := validated.length = 0,
                        durationMs := elapsedMs }

/-- `gate.skippedGate.Execute` (skipped_gate.go): immediately returns a
passed, skipped result. -/
def skippedGateExecute (name gateType : String) : GateResult :=
  { name := name, type := gateType, passed := true, skipped := true }

/- ### Execution engine (internal/engine/runner/runner.go) -/

/-- What one gate's goroutine contributes to the results channel: either
nothing (the child context was already cancelled before the gate started)
or the `(result, error)` pair returned by `gate.Execute`. -/
inductive GateTask where
  | cancelled
  | returned (res : Option GateResult) (err : Option String)
  deriving Repr, DecidableEq

/-- The placeholder `GateResult` the engine builds for a gate whose
`Execute` returned a non-nil error (runner.go): only `SystemError` is
populated. -/
def gatePlaceholder (errMsg : String) : GateResult :=
  { systemError := errMsg }

/-- The engine's collection step (runner.go): a non-nil result wins, a
nil result with a non-nil error becomes the placeholder, and anything else
leaves the slot nil. -/
def collectSlot : GateTask → Option GateResult
  | .cancelled => none
  | .returned (some r) _ => some r
  | .returned none (some e) => some (gatePlaceholder e)
  | .returned none none => none

/-- The engine's aggregation loop (runner.go): `Passed` starts true and is
cleared by any collected gate with `blocking ∧ (¬passed ∨ systemError ≠ "")`. -/
def aggregatePassed (gates : List GateResult) : Bool :=
  gates.foldl
    (fun acc r =>
      if r.blocking && (!r.passed || r.systemError ≠ "") then false else acc)
    true

/-- `runner.Engine.RunAll` (runner.go), as a function of what each gate's
goroutine contributed (`outcomes`, indexed in configuration order — the
engine writes results into their original slots) and of the measured wall
duration.  The second component is the returned Go error. -/
def runAll (outcomes : List GateTask) (durationMs : Int) :
    RunResult × Option String :=
  if outcomes.isEmpty then
    ({ passed := true, durationMs := 0 }, none)
  else
    let collected := outcomes.map collectSlot
    let gates := collected.filterMap id
    ({ passed := aggregatePassed gates, durationMs := durationMs, gates := gates },
     none)

/- ### Container runtime state (internal/engine/pool)

The Docker runtime is modelled as the labelled-container store the pool
reads and writes through the `ContainerRuntime` port.  Exec sessions are
tracked separately: creating and inspecting an exec session does not touch
the owning container's configuration (Docker labels are fixed at
`ContainerCreate`). -/

/-- One managed container: its labels (the pool's only state store) and
whether it is running. -/
structure ContainerRec where
  labels : List (String × String)
  running : Bool
  deriving Repr, DecidableEq

/-- One exec session created by `ContainerExecCreate`. -/
structure ExecSession where
  containerID : String
  cmd : List String
  deriving Repr, DecidableEq

/-- The runtime-visible state: containers by ID and exec sessions by ID. -/
structure RuntimeState where
  containers : List (String × ContainerRec)
  execs : List (String × ExecSession)
  deriving Repr, DecidableEq

/-- The label set `pool.createContainer` (pool.go) attaches to a new
container; `now` is the RFC3339 render of the creation time. -/
def poolContainerLabels (img projectPath : String) (writable : Bool)
    (key now : String) : List (String × String) :=
  [("gatekeeper.managed", "true"),
   ("gatekeeper.pool_key", key),
   ("gatekeeper.image", img),
   ("gatekeeper.project", projectPath),
   ("gatekeeper.writable", if writable then "true" else "false"),
   ("gatekeeper.last_used", now)]

/-- `pool.createContainer` (pool.go), restricted to its effect on the
runtime state: a new running container with the §3 labels. -/
def poolCreateContainer (s : RuntimeState) (cid img projectPath : String)
    (writable : Bool) (key now : String) : RuntimeState :=
  { s with containers :=
      (cid, ⟨poolContainerLabels img projectPath writable key now, true⟩)
        :: s.containers }

/-- `ContainerExecCreate` as used by `Executor.Run` (executor.go): records
a new exec session; container records (and hence labels) are untouched. -/
def containerExecCreate (s : RuntimeState) (execID cid : String)
    (cmd : List String) : RuntimeState :=
  { s with execs := (execID, ⟨cid, cmd⟩) :: s.execs }

/-- `pool.Executor.Run` (executor.go) as a state transformer: creates the
exec session for `["sh", "-c", command]`, then attach / demux / inspect
only read the stream and the exit code.  `streamOut`/`streamErr` are the
demultiplexed stream contents and `exitCode` the inspected exit code. -/
def executorRun (s : RuntimeState) (cid command execID : String)
    (streamOut streamErr : String) (exitCode : Int) (durationMs : Int) :
    RuntimeState × ExecResult :=
  let s₁ := containerExecCreate s execID cid ["sh", "-c", command]
  (s₁,
   { stdout := streamOut, stderr := streamErr, exitCode := exitCode,
     durationMs := durationMs })

/-- Read one label of one container. -/
def lookupLabel (s : RuntimeState) (cid label : String) : Option String :=
  match assocLookup s.containers cid with
  | none => none
  | some c => assocLookup c.labels label

/- ### CLI formatter (internal/engine/formatter/cli.go) -/

def ansiReset : String := "\x1b[0m"
def ansiBold : String := "\x1b[1m"
def ansiRed : String := "\x1b[31m"
def ansiGreen : String := "\x1b[32m"
def ansiYellow : String := "\x1b[33m"
def ansiCyan : String := "\x1b[36m"
def ansiDim : String := "\x1b[2m"

/-- `formatter.CLIFormatter` (cli.go). -/
structure CLIFormatter where
  color : Bool
  verbose : Bool
  deriving Repr, DecidableEq

/-- `CLIFormatter.colorize` (cli.go). -/
def colorize (f : CLIFormatter) (s code : String) : String :=
  if !f.color then s else code ++ s ++ ansiReset

/-- `CLIFormatter.gateIcon` (cli.go). -/
def cliGateIcon (f : CLIFormatter) (g : GateResult) : String :=
  if g.skipped then "⏭️"
  else if g.systemError ≠ "" then "💥"
  else if g.passed then colorize f "✅" ansiGreen
  else colorize f "❌" ansiRed

/-- `CLIFormatter.writeError` (cli.go): one structured error rendered as a
location, severity icon, rule tag, message and optional hint. -/
def cliWriteError (f : CLIFormatter) (e : StructuredError) : String :=
  let loc :=
    if e.file ≠ "" then
      let loc := e.file
      let loc :=
        if e.line > 0 then
          let loc := loc ++ ":" ++ toString e.line
          if e.column > 0 then loc ++ ":" ++ toString e.column else loc
        else loc
      colorize f loc ansiCyan ++ " "
    else ""
  let sev : String × String :=
    if e.severity = "error" then ("❌", ansiRed)
    else if e.severity = "warning" then ("⚠️", ansiYellow)
    else ("ℹ️", ansiDim)
  let rule :=
    if e.rule ≠ "" then colorize f ("[" ++ e.rule ++ "]") ansiDim ++ " " else ""
  "    " ++ sev.1 ++ " " ++ loc ++ rule ++ colorize f e.message sev.2 ++ "\n" ++
    (if e.hint ≠ "" then "      💡 " ++ e.hint ++ "\n" else "")

/-- The per-gate block of `CLIFormatter.Format` (cli.go): summary line,
system error, structured errors, then the raw output only in verbose
mode. -/
def cliFormatGate (f : CLIFormatter) (g : GateResult) : String :=
  "  " ++ cliGateIcon f g ++ " " ++ colorize f g.name ansiBold ++ " " ++
    colorize f (toString g.durationMs ++ "ms") ansiDim ++ "\n" ++
  (if g.systemError ≠ "" then
    "    💥 " ++ colorize f g.systemError ansiRed ++ "\n"
   else "") ++
  String.join (g.errors.map (cliWriteError f)) ++
  (if f.verbose && g.rawOutput ≠ "" then
    "\n    " ++ colorize f "--- raw output ---" ansiDim ++ "\n" ++
      String.join ((goSplitLines g.rawOutput).map
        (fun line => "    " ++ colorize f line ansiDim ++ "\n"))
   else "")

/-- `CLIFormatter.Format` (cli.go): header then the gate blocks in
configuration order. -/
def cliFormat (f : CLIFormatter) (result : RunResult) : String :=
  let hdr : String × String :=
    if !result.passed then (colorize f "❌" ansiRed, "failed")
    else (colorize f "✅" ansiGreen, "passed")
  "\n" ++ hdr.1 ++ " " ++ colorize f "Gatekeeper" ansiBold ++ " — " ++ hdr.2 ++
    " in " ++ toString result.durationMs ++ "ms\n\n" ++
  String.join (result.gates.map (cliFormatGate f))

/-- A gate result with its raw output dropped (what a formatter that never
shows raw output behaves as if it received). -/
def eraseRawOutput (g : GateResult) : GateResult :=
  { g with rawOutput := "" }

/- ### Shared invariants -/

/-- The documented `GateResult` invariant (spec §3): a system error forces
a failed verdict, and a skipped gate has no diagnostics and passes. -/
def gateResultInvariant (g : GateResult) : Prop :=
  (g.systemError ≠ "" → g.passed = false) ∧
  (g.skipped = true → g.errors = [] ∧ g.passed = true)

end Gatekeeper

namespace Gatekeeper

/-- The engine's aggregation loop never resurrects a cleared verdict: the
fold equals the conjunction of the start value with per-gate goodness. -/
theorem aggregatePassed_foldl_eq (gates : List GateResult) (acc : Bool) :
    gates.foldl
      (fun acc r =>
        if r.blocking && (!r.passed || r.systemError ≠ "") then false else acc)
      acc =
    (acc && gates.all
      (fun r => !(r.blocking && (!r.passed || r.systemError ≠ "")))) := by
  induction gates generalizing acc with
  | nil => simp
  | cons g gs ih =>
    rw [List.foldl_cons, ih, List.all_cons]
    cases hbad : (g.blocking && (!g.passed || g.systemError ≠ "")) <;> simp

/-- C1: for every `RunResult` produced by the engine, `passed = true` iff
every collected gate result is non-blocking or both passed and free of a
system error.  (Claim C1.) -/
theorem runAll_passed_iff (outcomes : List GateTask) (d : Int) :
    (runAll outcomes d).1.passed = true ↔
    ∀ g ∈ (runAll outcomes d).1.gates,
      g.blocking = false ∨ (g.passed = true ∧ g.systemError = "") := by
  unfold runAll
  by_cases h : outcomes.isEmpty
  · simp [h]
  · simp only [h, Bool.false_eq_true, if_false]
    unfold aggregatePassed
    rw [aggregatePassed_foldl_eq]
    simp only [Bool.true_and, List.all_eq_true]
    constructor
    · intro hall g hg
      have := hall g hg
      rcases hb : g.blocking with _ | _
      · exact Or.inl rfl
      · rcases hp : g.passed with _ | _
        · simp [hb, hp] at this
        · refine Or.inr ⟨rfl, ?_⟩
          simp [hb, hp] at this
          exact this
    · intro hall g hg
      rcases hall g hg with hb | ⟨hp, hs⟩
      · simp [hb]
      · simp [hp, hs]

/-- C10: the engine returns a nil error for every input, and a gate whose
`Execute` returned a non-nil error contributes a placeholder result
carrying that error text as its `system_error`.  (Claim C10.) -/
theorem runAll_swallows_errors (outcomes : List GateTask) (d : Int) :
    (runAll outcomes d).2 = none ∧
    ∀ e : String, GateTask.returned none (some e) ∈ outcomes →
      ∃ g ∈ (runAll outcomes d).1.gates, g.systemError = e := by
  constructor
  · unfold runAll
    by_cases h : outcomes.isEmpty <;> simp [h]
  · intro e he
    have hne : outcomes.isEmpty = false := by
      cases outcomes with
      | nil => cases he
      | cons x xs => rfl
    unfold runAll
    simp only [hne, Bool.false_eq_true, if_false]
    refine ⟨gatePlaceholder e, ?_, rfl⟩
    rw [List.mem_filterMap]
    refine ⟨some (gatePlaceholder e), ?_, rfl⟩
    rw [List.mem_map]
    exact ⟨GateTask.returned none (some e), he, rfl⟩

/-- C10 witness: a single error-returning gate yields a nil engine error
and a collected placeholder carrying the error text. -/
theorem runAll_swallows_errors_witness :
    (runAll [GateTask.returned none (some "system error")] 3).2 = none ∧
    ∃ g ∈ (runAll [GateTask.returned none (some "system error")] 3).1.gates,
      g.systemError = "system error" := by
  have h := runAll_swallows_errors [GateTask.returned none (some "system error")] 3
  exact ⟨h.1, h.2 "system error" (by simp)⟩

/-- C8: `FilterGates` is idempotent, and with no staged files it returns
all gates unchanged.  (Claim C8.) -/
theorem filterGates_idempotent (fmatch : String → String → Bool)
    (G : List GateConfig) (F : List String) :
    FilterGates fmatch (FilterGates fmatch G F) F = FilterGates fmatch G F ∧
    FilterGates fmatch G [] = G := by
  constructor
  · unfold FilterGates
    by_cases h : F.isEmpty
    · simp [h]
    · simp only [h, if_neg, Bool.false_eq_true, if_false]
      induction G with
      | nil => simp
      | cons g gs ih =>
        by_cases hg : ShouldRun fmatch g F
        · simp [List.filter_cons, hg, ih]
        · simp [List.filter_cons, hg, ih]
  · simp [FilterGates]

/-- C9: the pool key digests the unescaped concatenation
`image ++ "|" ++ project ++ "|" ++ writable`, so the distinct pairs
(image "a|b", project "c") and (image "a", project "b|c") with equal
`writable` collide for every digest function.  (Claim C9.) -/
theorem computePoolKey_not_injective (h : String → String) (w : Bool) :
    computePoolKey h "a|b" "c" w = computePoolKey h "a" "b|c" w ∧
    ¬("a|b" = "a" ∧ "c" = "b|c") := by
  constructor
  · unfold computePoolKey poolKeyData
    cases w <;> rfl
  · decide

/-- C5: every `GateResult` produced by the container gate, the LLM gate,
the skipped gate, or the engine's error placeholder satisfies the
documented invariant: a non-empty system error forces `passed = false`,
and a skipped result has no diagnostics and passes.  (Claim C5.) -/
theorem gate_results_satisfy_invariant (db : String → Option String)
    (cfg cfgL : GateConfig)
    (poolRes : Except String String) (execRes : Except String ExecResult)
    (parseRes : Except String ParseResult)
    (diffsRes : Except String (List FileDiff))
    (reviewRes : Except String (List StructuredError))
    (e₁ e₂ : Int) (nm ty errMsg : String) :
    gateResultInvariant (containerGateExecute db cfg poolRes execRes parseRes e₁) ∧
    gateResultInvariant (llmGateExecute cfgL diffsRes reviewRes e₂) ∧
    gateResultInvariant (skippedGateExecute nm ty) ∧
    gateResultInvariant (gatePlaceholder errMsg) := by
  refine ⟨?_, ?_, ?_, ?_⟩
  · unfold containerGateExecute gateResultInvariant
    rcases poolRes with e | cid
    · simp
    · rcases execRes with e | er
      · simp
      · rcases parseRes with e | p <;> simp
  · unfold llmGateExecute gateResultInvariant
    rcases diffsRes with e | diffs
    · simp
    · by_cases h0 : diffs.length = 0
      · simp [h0]
      · by_cases h1 : ((FilterBySize diffs (parseMaxFileSize cfgL.maxFileSize)).1).length = 0
        · simp [h0, h1]
        · rcases reviewRes with e | errs <;> simp [h0, h1]
  · unfold skippedGateExecute gateResultInvariant
    simp
  · unfold gatePlaceholder gateResultInvariant
    simp

/-- C2 (amended): each parser fails closed on empty stdout with a non-zero
exit code, producing exactly one error-severity diagnostic; the generic and
go-test parsers use the trimmed stderr (with their fixed fallback strings
when it trims to empty), while the SARIF parser uses stderr verbatim and
falls back only when stderr is byte-empty. -/
theorem parsers_fail_closed (fromBytes : String → Except String SarifReport)
    (parseEv : String → Except String (List TestEvent))
    (stdout stderr : String) (exitCode : Int)
    (hout : goTrimSpace stdout = "") (hec : exitCode ≠ 0) :
    genericParse stdout stderr exitCode =
      { passed := false,
        errors := [{ severity := "error",
                     message := if goTrimSpace stderr = ""
                                then "Tool failed with no output"
                                else goTrimSpace stderr,
                     tool := "generic" }] } ∧
    sarifParse fromBytes stdout stderr exitCode =
      .ok { passed := false,
            errors := [{ severity := "error",
                         message := if stderr = ""
                                    then "Tool failed with non-zero exit code and empty stdout"
                                    else stderr,
                         tool := "sarif" }] } ∧
    goTestParse parseEv stdout stderr exitCode =
      .ok { passed := false,
            errors := [{ severity := "error",
                         message := if goTrimSpace stderr = ""
                                    then "go test failed with non-zero exit code and empty output"
                                    else goTrimSpace stderr,
                         tool := "go-test" }] } := by
  refine ⟨?_, ?_, ?_⟩
  · unfold genericParse
    rw [if_neg hec]
    by_cases hs : goTrimSpace stderr = ""
    · have hconst : goTrimSpace "Tool failed with no output" =
          "Tool failed with no output" := by decide
      simp [hs, hout, hconst]
    · simp [hs]
  · unfold sarifParse
    rw [if_pos hout, if_pos hec]
  · unfold goTestParse
    rw [if_pos hout, if_pos hec]

/-- C2 witness: the generic parser at stdout "  ", stderr " e ", exit 1
produces the single trimmed-stderr diagnostic. -/
theorem parsers_fail_closed_witness :
    genericParse "  " " e " 1 =
      { passed := false,
        errors := [{ severity := "error",
                     message := if goTrimSpace " e " = ""
                                then "Tool failed with no output"
                                else goTrimSpace " e ",
                     tool := "generic" }] } :=
  (parsers_fail_closed (fun _ => Except.error "unused")
    (fun _ => Except.error "unused") "  " " e " 1 (by decide) (by decide)).1

/-- C2 counterexample: with stdout empty, exit code 1 and
stderr " boom ", the SARIF parser's single diagnostic carries the message
" boom " — stderr verbatim — which is neither the trimmed stderr nor the
generic no-output fallback, so the claim as stated is false. -/
theorem sarif_message_not_trimmed_counterexample :
    (sarifParse (fun _ => Except.error "unused") "" " boom " 1) =
      .ok { passed := false,
            errors := [{ severity := "error", message := " boom ",
                         tool := "sarif" }] } ∧
    " boom " ≠ goTrimSpace " boom " ∧
    " boom " ≠ "Tool failed with non-zero exit code and empty stdout" := by
  refine ⟨rfl, by decide, by decide⟩

/-- The hunk-line fold never decreases its accumulator. -/
theorem diffMaxLine_foldl_le (lines : List String) :
    ∀ acc : Int,
      acc ≤ lines.foldl
        (fun maxLine line =>
          if goHasPrefix line "@@ " then
            let sc := parseHunkHeader line
            if sc.1 + sc.2 > maxLine then sc.1 + sc.2 else maxLine
          else maxLine) acc := by
  induction lines with
  | nil => intro acc; exact le_refl acc
  | cons l ls ih =>
    intro acc
    refine le_trans ?_ (ih _)
    by_cases hp : goHasPrefix l "@@ " = true
    · simp only [List.foldl_cons, hp, if_true]
      by_cases hgt : (parseHunkHeader l).1 + (parseHunkHeader l).2 > acc
      · simp only [hgt, if_true]
        exact le_of_lt hgt
      · simp [hgt]
    · simp [hp]

/-- `diffMaxLine` is non-negative: the fold starts at 0 and never
decreases. -/
theorem diffMaxLine_nonneg (content : String) : 0 ≤ diffMaxLine content :=
  diffMaxLine_foldl_le (goSplitLines content) 0

/-- A value found after an upsert is the inserted value or an old value. -/
theorem assocLookup_upsert {α : Type} (l : List (String × α)) (k : String)
    (v : α) (k₀ : String) (m : α) :
    assocLookup (assocUpsert l k v) k₀ = some m →
    m = v ∨ assocLookup l k₀ = some m := by
  induction l with
  | nil =>
    intro h
    unfold assocUpsert assocLookup at h
    by_cases hk : k = k₀
    · simp [hk] at h
      exact Or.inl h.symm
    · simp [hk, assocLookup] at h
  | cons p rest ih =>
    intro h
    unfold assocUpsert at h
    by_cases hp : p.1 = k
    · simp only [hp, if_true] at h
      unfold assocLookup at h ⊢
      by_cases hk : k = k₀
      · simp [hk] at h ⊢
        subst hk
        simp [hp]
        exact Or.inl h.symm
      · simp [hk] at h
        simp [hp, hk]
        exact Or.inr h
    · simp only [hp, if_false] at h
      unfold assocLookup at h ⊢
      by_cases hk : p.1 = k₀
      · simp [hk] at h ⊢
        exact Or.inr h
      · simp [hk] at h ⊢
        exact ih h

/-- Every value stored by `buildDiffLineMap` is at least 1: a computed
maximum is positive, and the generous default is 10000. -/
theorem buildDiffLineMap_pos (diffs : List FileDiff) :
    ∀ (k : String) (m : Int),
      assocLookup (buildDiffLineMap diffs) k = some m → 1 ≤ m := by
  unfold buildDiffLineMap
  suffices h : ∀ (acc : List (String × Int)),
      (∀ (k : String) (m : Int), assocLookup acc k = some m → 1 ≤ m) →
      ∀ (k : String) (m : Int),
        assocLookup
          (diffs.foldl
            (fun acc d =>
              let maxLine := diffMaxLine d.content
              let maxLine := if maxLine = 0 then 10000 else maxLine
              assocUpsert acc d.path maxLine) acc) k = some m → 1 ≤ m by
    refine h [] ?_
    intro k m hm
    simp [assocLookup] at hm
  induction diffs with
  | nil => intro acc hacc; exact hacc
  | cons d ds ih =>
    intro acc hacc k m
    simp only [List.foldl_cons]
    refine ih _ ?_ k m
    intro k₁ m₁ hm₁
    rcases assocLookup_upsert _ _ _ _ _ hm₁ with hv | hold
    · subst hv
      by_cases h0 : diffMaxLine d.content = 0
      · simp [h0]
      · have := diffMaxLine_nonneg d.content
        simp only [h0, if_false]
        omega
    · exact hacc _ _ hold

/-- C3: a diagnostic survives `ValidateLineNumbers` iff its file is in the
diff map and its line does not exceed that file's maximum hunk line
(`start+count`, generous default when no hunk header parses); the spec's
concrete hallucination-filter scenario evaluates as documented.
(Claim C3.) -/
theorem validateLineNumbers_spec :
    (∀ (errors : List StructuredError) (diffs : List FileDiff)
       (e : StructuredError),
      e ∈ ValidateLineNumbers errors diffs ↔
        (e ∈ errors ∧
          ∃ m, assocLookup (buildDiffLineMap diffs) e.file = some m ∧
            e.line ≤ m)) ∧
    ValidateLineNumbers
      [{ file := "a.go", line := 15 }, { file := "a.go", line := 999 },
       { file := "unknown.go", line := 1 }]
      [{ path := "a.go",
         content := "diff --git a/a.go b/a.go\n@@ -1,3 +10,20 @@\n+foo" }] =
      [{ file := "a.go", line := 15 }] := by
  constructor
  · intro errors diffs e
    unfold ValidateLineNumbers
    rw [List.mem_filter]
    constructor
    · rintro ⟨he, hp⟩
      refine ⟨he, ?_⟩
      cases hl : assocLookup (buildDiffLineMap diffs) e.file with
      | none => rw [hl] at hp; cases hp
      | some m =>
        rw [hl] at hp
        refine ⟨m, rfl, ?_⟩
        have hm := buildDiffLineMap_pos diffs e.file m hl
        simp at hp
        omega
    · rintro ⟨he, m, hl, hle⟩
      refine ⟨he, ?_⟩
      rw [hl]
      simp
      omega
  · decide

/-- C4: the executor's exec path (create session, attach, demux, inspect)
leaves the container store — and hence every `gatekeeper.last_used`
label — untouched; concretely, a container created with
`last_used = 2026-01-01T00:00:00Z` still carries that timestamp after an
exec run.  (Documents the code-bug side of claim C4: the label is written
once at creation and never refreshed.) -/
theorem executor_preserves_labels (s : RuntimeState)
    (cid command execID so se : String) (ec d : Int) :
    (executorRun s cid command execID so se ec d).1.containers =
      s.containers ∧
    lookupLabel
      ((executorRun
        (poolCreateContainer { containers := [], execs := [] }
          "c1" "golang:1.22" "/proj" false "key" "2026-01-01T00:00:00Z")
        "c1" "go test ./..." "e1" "out" "" 0 42).1)
      "c1" "gatekeeper.last_used" = some "2026-01-01T00:00:00Z" := by
  exact ⟨rfl, by decide⟩

/-- The per-gate CLI block ignores `rawOutput` when verbose mode is
off. -/
theorem cliFormatGate_erase (color : Bool) (g : GateResult) :
    cliFormatGate ⟨color, false⟩ (eraseRawOutput g) =
      cliFormatGate ⟨color, false⟩ g := by
  unfold cliFormatGate eraseRawOutput cliGateIcon
  simp

/-- C6 (amended): the container gate always records the tool's raw stdout
in the `GateResult` (there is no verbose switch at the gate level), and
the human-readable CLI formatter with verbose off renders a run result
identically with and without the raw outputs — raw output only reaches
the human rendering in verbose mode, while retention itself is
unconditional. -/
theorem raw_output_retention (db : String → Option String) (cfg : GateConfig)
    (cid : String) (er : ExecResult) (parseRes : Except String ParseResult)
    (elapsedMs : Int) :
    (containerGateExecute db cfg (.ok cid) (.ok er) parseRes
        elapsedMs).rawOutput = er.stdout ∧
    ∀ (color : Bool) (r : RunResult),
      cliFormat ⟨color, false⟩ r =
        cliFormat ⟨color, false⟩ { r with gates := r.gates.map eraseRawOutput } := by
  constructor
  · unfold containerGateExecute
    rcases parseRes with e | p <;> rfl
  · intro color r
    unfold cliFormat
    have hfun : (cliFormatGate (⟨color, false⟩ : CLIFormatter) ∘ eraseRawOutput) =
        cliFormatGate ⟨color, false⟩ :=
      funext (fun g => cliFormatGate_erase color g)
    simp [List.map_map, hfun]

/-- C6 counterexample: a concrete non-verbose container-gate execution
whose result retains the raw stdout "tool output", contradicting the
claim that raw output is not retained outside verbose mode. -/
theorem raw_output_retained_counterexample :
    (containerGateExecute (fun _ => none) { name := "lint" } (Except.ok "c1")
       (Except.ok { stdout := "tool output", stderr := "", exitCode := 0,
                    durationMs := 5 })
       (Except.ok { passed := true, errors := [] }) 7).rawOutput =
      "tool output" ∧
    "tool output" ≠ "" := by
  exact ⟨rfl, by decide⟩

/-- C7: at the exit-status step, the dry-run variant exits 0 regardless of
the verdict; the normal run exits 0 iff `RunResult.passed`, and produces
the distinct `ErrGatesFailed` sentinel iff `RunResult.passed = false`.
(Claim C7.) -/
theorem pipeline_exit_status (result : RunResult) :
    dryRunCmdExit (pipelineExitStep true result) = 0 ∧
    (runCmdExit (pipelineExitStep false result) = 0 ↔ result.passed = true) ∧
    (pipelineExitStep false result = some .gatesFailed ↔ result.passed = false) := by
  cases hp : result.passed <;>
    simp [pipelineExitStep, runCmdExit, dryRunCmdExit, hp]

end Gatekeeper
